import Mathlib

set_option maxRecDepth 8000

/-!
Verification of the VideoPacket framing core of `factory/video_packet.go`
(tcplayer). The byte stream of a captured TCP connection is modelled as a
`List Nat` (each element an octet value), and the reader is the full-read
reader fixed by the specification: a read of `k` bytes returns exactly `k`
bytes, or fails with end-of-stream (`none`) when fewer than `k` bytes remain.
`parseVideoPacketRequest`, `handleVideoPacketRequest`, `handleVideoPacketRaw`
and `VideoPacketStreamFactory.New` are embedded as pure functions; the
submissions a handler makes to the delivery queue (`d.C`) or to the
per-connection sender (`sender.Data()`) are collected as lists of byte
buffers in submission order.
-/

namespace VideoPacket

/-- One octet of the stream, as a natural number. -/
abbrev Byte := Nat

/-- The reader model fixed by the spec: `r.Read(buf)` with `buf` of size `k`
fills the whole buffer when at least `k` bytes remain, and fails only with
end-of-stream (`none`) otherwise. Returns the bytes read and the rest of the
stream. -/
def readFull (k : Nat) (s : List Byte) : Option (List Byte × List Byte) :=
  if k ≤ s.length then some (s.take k, s.drop k) else none

/-- `binary.BigEndian.Uint32(length)` on the 4-byte length buffer: each
element is an octet (`% 256` reflects the Go `byte` type). Off-shape lists
(never produced by `readFull 4`) map to `0`. -/
def bigEndianUint32 : List Byte → Nat
  | [b0, b1, b2, b3] =>
      (b0 % 256) * 16777216 + (b1 % 256) * 65536 + (b2 % 256) * 256 + (b3 % 256)
  | _ => 0

/-- `dataLength = uint64(binary.BigEndian.Uint32(length)) - 17`: unsigned
64-bit subtraction, so a length field below 17 wraps modulo `2^64`. -/
def videoDataLength (length : List Byte) : Nat :=
  (bigEndianUint32 length + (18446744073709551616 - 17)) % 18446744073709551616

/-- Result of one header-to-tail candidate attempt inside
`parseVideoPacketRequest`'s outer loop: end-of-stream (returned to the
caller), a `continue` (resume scanning on the remaining stream), or a
complete validated request. -/
inductive CandidateResult where
  | eof : CandidateResult
  | retry (rest : List Byte) : CandidateResult
  | found (req rest : List Byte) : CandidateResult
  deriving DecidableEq

/-- One iteration of `parseVideoPacketRequest`'s outer loop, after the header
byte `0x26` (38) has been consumed: read 4 length bytes, 1 version byte, 10
reserved bytes, the payload, and 1 tail byte, exactly as the Go code does.
The Go code guards the payload read with `if dataLength > 0` and checks the
10 MiB bound inside that guard; since `readFull 0 s = some ([], s)` (matching
`data := []byte{}`) and `0 > 10*1024*1024` is false, the two shapes agree. -/
def parseCandidate (s : List Byte) : CandidateResult :=
  match readFull 4 s with
  | none => .eof
  | some (length, s1) =>
    -- dataLength = uint64(binary.BigEndian.Uint32(length)) - 17
    -- `if dataLength < 0 { continue }`: can never fire on an unsigned value
    if videoDataLength length < 0 then .retry s1
    else
      match readFull 1 s1 with
      | none => .eof
      | some (version, s2) =>
        if version ≠ [1] then .retry s2
        else
          match readFull 10 s2 with
          | none => .eof
          | some (reserved, s3) =>
            if 10485760 < videoDataLength length then .retry s3
            else
              match readFull (videoDataLength length) s3 with
              | none => .eof
              | some (data, s4) =>
                match readFull 1 s4 with
                | none => .eof
                | some (tail, s5) =>
                  if tail ≠ [40] then .retry s5
                  else .found (38 :: (length ++ (version ++ (reserved ++ (data ++ tail))))) s5

/-- Outcome of running the outer loop of `parseVideoPacketRequest` for a
bounded number of iterations. -/
inductive IterResult where
  | outOfFuel : IterResult
  | done (r : Option (List Byte × List Byte)) : IterResult
  deriving DecidableEq

/-- The outer loop of `parseVideoPacketRequest`, step-indexed: scan for a
`0x26` (38) header byte one byte at a time (end-of-stream while scanning is
returned to the caller), then run one candidate attempt; a `continue` resumes
the loop on the remaining stream. -/
def parseIter : Nat → List Byte → IterResult
  | 0, _ => .outOfFuel
  | fuel + 1, s =>
    match s with
    | [] => .done none
    | b :: rest =>
      if b = 38 then
        match parseCandidate rest with
        | .eof => .done none
        | .found req r => .done (some (req, r))
        | .retry r => parseIter fuel r
      else parseIter fuel rest

/-- `parseVideoPacketRequest`: returns one complete validated VideoPacket
request (and the remaining stream) or end-of-stream (`none`). Every loop
iteration consumes at least one byte, so `s.length + 1` iterations always
suffice (`parseIter_complete` below). -/
def parseVideoPacketRequest (s : List Byte) : Option (List Byte × List Byte) :=
  match parseIter (s.length + 1) s with
  | .done r => r
  | .outOfFuel => none

/-! ### Basic facts about the reader model -/

theorem readFull_eq_some {k : Nat} {s a r : List Byte}
    (h : readFull k s = some (a, r)) :
    a = s.take k ∧ r = s.drop k ∧ k ≤ s.length := by
  unfold readFull at h
  split at h
  · simp only [Option.some.injEq, Prod.mk.injEq] at h
    exact ⟨h.1.symm, h.2.symm, by assumption⟩
  · exact absurd h (by simp)

theorem readFull_append {k : Nat} (a b : List Byte) (h : a.length = k) :
    readFull k (a ++ b) = some (a, b) := by
  subst h
  unfold readFull
  rw [if_pos (by simp), List.take_append_of_le_length (Nat.le_refl _),
    List.drop_append_of_le_length (Nat.le_refl _)]
  simp

theorem readFull_cons (b : Byte) (s : List Byte) :
    readFull 1 (b :: s) = some ([b], s) := by
  unfold readFull
  simp

theorem readFull_short {k : Nat} {s : List Byte} (h : s.length < k) :
    readFull k s = none := by
  unfold readFull
  rw [if_neg (by omega)]

theorem readFull_nil {k : Nat} (h : 0 < k) : readFull k ([] : List Byte) = none :=
  readFull_short (by simpa using h)

theorem readFull_all (s : List Byte) : readFull s.length s = some (s, []) := by
  have := readFull_append s [] rfl
  simpa using this

/-! ### Consumption bounds for one candidate attempt -/

theorem parseCandidate_retry_length {s r : List Byte}
    (h : parseCandidate s = .retry r) : r.length < s.length := by
  unfold parseCandidate at h
  split at h
  · exact absurd h (by simp)
  next length s1 heq1 =>
    obtain ⟨-, hs1, hk1⟩ := readFull_eq_some heq1
    split at h
    · omega
    split at h
    · exact absurd h (by simp)
    next version s2 heq2 =>
      obtain ⟨-, hs2, hk2⟩ := readFull_eq_some heq2
      split at h
      · cases h
        rw [hs2, hs1]
        simp only [List.length_drop]
        omega
      split at h
      · exact absurd h (by simp)
      next reserved s3 heq3 =>
        obtain ⟨-, hs3, hk3⟩ := readFull_eq_some heq3
        split at h
        · cases h
          rw [hs3, hs2, hs1]
          simp only [List.length_drop]
          omega
        split at h
        · exact absurd h (by simp)
        next data s4 heq4 =>
          obtain ⟨-, hs4, hk4⟩ := readFull_eq_some heq4
          split at h
          · exact absurd h (by simp)
          next tail s5 heq5 =>
            obtain ⟨-, hs5, hk5⟩ := readFull_eq_some heq5
            split at h
            · cases h
              rw [hs5, hs4, hs3, hs2, hs1]
              simp only [List.length_drop]
              omega
            · exact absurd h (by simp)

theorem parseCandidate_found_length {s req r : List Byte}
    (h : parseCandidate s = .found req r) : r.length < s.length := by
  unfold parseCandidate at h
  split at h
  · exact absurd h (by simp)
  next length s1 heq1 =>
    obtain ⟨-, hs1, hk1⟩ := readFull_eq_some heq1
    split at h
    · exact absurd h (by simp)
    split at h
    · exact absurd h (by simp)
    next version s2 heq2 =>
      obtain ⟨-, hs2, hk2⟩ := readFull_eq_some heq2
      split at h
      · exact absurd h (by simp)
      split at h
      · exact absurd h (by simp)
      next reserved s3 heq3 =>
        obtain ⟨-, hs3, hk3⟩ := readFull_eq_some heq3
        split at h
        · exact absurd h (by simp)
        split at h
        · exact absurd h (by simp)
        next data s4 heq4 =>
          obtain ⟨-, hs4, hk4⟩ := readFull_eq_some heq4
          split at h
          · exact absurd h (by simp)
          next tail s5 heq5 =>
            obtain ⟨-, hs5, hk5⟩ := readFull_eq_some heq5
            split at h
            · exact absurd h (by simp)
            · cases h
              rw [hs5, hs4, hs3, hs2, hs1]
              simp only [List.length_drop]
              omega

/-! ### Fuel adequacy: the outer loop consumes at least one byte per
iteration, so `s.length + 1` iterations always terminate -/

theorem parseIter_irrel :
    ∀ (f1 f2 : Nat) (s : List Byte), s.length < f1 → s.length < f2 →
      parseIter f1 s = parseIter f2 s := by
  intro f1
  induction f1 with
  | zero => intro f2 s h1 _; omega
  | succ f1 ih =>
    intro f2 s h1 h2
    cases f2 with
    | zero => omega
    | succ f2 =>
      cases s with
      | nil => simp [parseIter]
      | cons b rest =>
        simp only [parseIter]
        by_cases hb : b = 38
        · rw [if_pos hb, if_pos hb]
          cases hc : parseCandidate rest with
          | eof => rfl
          | found req r => rfl
          | retry r =>
            have hr := parseCandidate_retry_length hc
            simp only [List.length_cons] at h1 h2
            exact ih f2 r (by omega) (by omega)
        · rw [if_neg hb, if_neg hb]
          simp only [List.length_cons] at h1 h2
          exact ih f2 rest (by omega) (by omega)

theorem parseIter_done :
    ∀ (f : Nat) (s : List Byte), s.length < f →
      ∃ r, parseIter f s = .done r := by
  intro f
  induction f with
  | zero => intro s h; omega
  | succ f ih =>
    intro s h
    cases s with
    | nil => exact ⟨none, by simp [parseIter]⟩
    | cons b rest =>
      simp only [parseIter]
      by_cases hb : b = 38
      · rw [if_pos hb]
        cases hc : parseCandidate rest with
        | eof => exact ⟨none, rfl⟩
        | found req r => exact ⟨some (req, r), rfl⟩
        | retry r =>
          have hr := parseCandidate_retry_length hc
          simp only [List.length_cons] at h
          exact ih r (by omega)
      · rw [if_neg hb]
        simp only [List.length_cons] at h
        exact ih rest (by omega)

/-- Adequacy of the step-indexed loop: with more than `s.length` iterations
available, the loop terminates and computes `parseVideoPacketRequest s`. -/
theorem parseIter_complete (f : Nat) (s : List Byte) (h : s.length < f) :
    parseIter f s = .done (parseVideoPacketRequest s) := by
  obtain ⟨r, hr⟩ := parseIter_done (s.length + 1) s (by omega)
  have hp : parseVideoPacketRequest s = r := by
    unfold parseVideoPacketRequest
    rw [hr]
  rw [parseIter_irrel f (s.length + 1) s h (by omega), hr, hp]

theorem parse_eq_of_iter {s : List Byte} {x : Option (List Byte × List Byte)}
    (h : parseIter (s.length + 1) s = .done x) :
    parseVideoPacketRequest s = x := by
  unfold parseVideoPacketRequest
  rw [h]

/-! ### Unfolding laws for `parseVideoPacketRequest` -/

theorem parse_nil : parseVideoPacketRequest [] = none := rfl

theorem parse_scan {b : Byte} (s : List Byte) (hb : b ≠ 38) :
    parseVideoPacketRequest (b :: s) = parseVideoPacketRequest s := by
  apply parse_eq_of_iter
  simp only [List.length_cons, parseIter, if_neg hb]
  exact parseIter_complete (s.length + 1) s (by omega)

theorem parse_header_eof {s : List Byte} (hc : parseCandidate s = .eof) :
    parseVideoPacketRequest (38 :: s) = none := by
  apply parse_eq_of_iter
  simp only [List.length_cons, parseIter, hc, if_true]

theorem parse_header_found {s req r : List Byte}
    (hc : parseCandidate s = .found req r) :
    parseVideoPacketRequest (38 :: s) = some (req, r) := by
  apply parse_eq_of_iter
  simp only [List.length_cons, parseIter, hc, if_true]

theorem parse_header_retry {s r : List Byte} (hc : parseCandidate s = .retry r) :
    parseVideoPacketRequest (38 :: s) = parseVideoPacketRequest r := by
  apply parse_eq_of_iter
  simp only [List.length_cons, parseIter, hc, if_true]
  exact parseIter_complete (s.length + 1) r
    (by have := parseCandidate_retry_length hc; omega)

/-- Scanning skips any prefix that contains no `0x26` header byte. -/
theorem parse_scan_append {g : List Byte} (s : List Byte)
    (hg : ∀ b ∈ g, b ≠ 38) :
    parseVideoPacketRequest (g ++ s) = parseVideoPacketRequest s := by
  induction g with
  | nil => rfl
  | cons b g ih =>
    rw [List.cons_append, parse_scan _ (hg b (by simp)),
      ih (fun x hx => hg x (by simp [hx]))]

/-- A stream with no `0x26` header byte exhausts with end-of-stream. -/
theorem parse_no_header {g : List Byte} (hg : ∀ b ∈ g, b ≠ 38) :
    parseVideoPacketRequest g = none := by
  have := parse_scan_append ([] : List Byte) hg
  rw [List.append_nil] at this
  rw [this, parse_nil]

/-! ### Behaviour of one candidate attempt on shaped streams -/

theorem parseCandidate_eof_length {s : List Byte} (h : s.length < 4) :
    parseCandidate s = .eof := by
  unfold parseCandidate
  rw [readFull_short h]

theorem parseCandidate_eof_version {s : List Byte} (h : s.length = 4) :
    parseCandidate s = .eof := by
  unfold parseCandidate
  rw [show (4 : Nat) = s.length from h.symm]
  simp only [readFull_all, if_neg (Nat.not_lt_zero _), readFull_nil Nat.one_pos]

theorem parseCandidate_eof_reserved {len4 s : List Byte}
    (h4 : len4.length = 4) (hs : s.length < 10) :
    parseCandidate (len4 ++ (1 :: s)) = .eof := by
  unfold parseCandidate
  simp only [readFull_append len4 (1 :: s) h4, if_neg (Nat.not_lt_zero _),
    readFull_cons, if_neg (show ¬([1] : List Byte) ≠ [1] by simp),
    readFull_short hs]

theorem parseCandidate_eof_payload {len4 res s : List Byte}
    (h4 : len4.length = 4) (hres : res.length = 10)
    (hdl : videoDataLength len4 ≤ 10485760) (hs : s.length < videoDataLength len4) :
    parseCandidate (len4 ++ (1 :: (res ++ s))) = .eof := by
  unfold parseCandidate
  simp only [readFull_append len4 (1 :: (res ++ s)) h4, if_neg (Nat.not_lt_zero _),
    readFull_cons, if_neg (show ¬([1] : List Byte) ≠ [1] by simp),
    readFull_append res s hres, if_neg (Nat.not_lt.mpr hdl),
    readFull_short hs]

theorem parseCandidate_eof_tail {len4 res pay : List Byte}
    (h4 : len4.length = 4) (hres : res.length = 10)
    (hdl : videoDataLength len4 ≤ 10485760)
    (hpay : pay.length = videoDataLength len4) :
    parseCandidate (len4 ++ (1 :: (res ++ pay))) = .eof := by
  unfold parseCandidate
  simp only [readFull_append len4 (1 :: (res ++ pay)) h4, if_neg (Nat.not_lt_zero _),
    readFull_cons, if_neg (show ¬([1] : List Byte) ≠ [1] by simp),
    readFull_append res pay hres, if_neg (Nat.not_lt.mpr hdl),
    ← hpay, readFull_all, readFull_nil Nat.one_pos]
  rw [if_neg (show ¬10485760 < pay.length by omega)]

theorem parseCandidate_version_retry {len4 : List Byte} {v : Byte} (s : List Byte)
    (h4 : len4.length = 4) (hv : v ≠ 1) :
    parseCandidate (len4 ++ (v :: s)) = .retry s := by
  unfold parseCandidate
  simp only [readFull_append len4 (v :: s) h4, if_neg (Nat.not_lt_zero _),
    readFull_cons, if_pos (show ([v] : List Byte) ≠ [1] by simp [hv])]

theorem parseCandidate_length_retry {len4 res : List Byte} (s : List Byte)
    (h4 : len4.length = 4) (hres : res.length = 10)
    (hdl : 10485760 < videoDataLength len4) :
    parseCandidate (len4 ++ (1 :: (res ++ s))) = .retry s := by
  unfold parseCandidate
  simp only [readFull_append len4 (1 :: (res ++ s)) h4, if_neg (Nat.not_lt_zero _),
    readFull_cons, if_neg (show ¬([1] : List Byte) ≠ [1] by simp),
    readFull_append res s hres, if_pos hdl]

theorem parseCandidate_tail_retry {len4 res pay : List Byte} {t : Byte}
    (s : List Byte) (h4 : len4.length = 4) (hres : res.length = 10)
    (hpay : pay.length = videoDataLength len4)
    (hdl : videoDataLength len4 ≤ 10485760) (ht : t ≠ 40) :
    parseCandidate (len4 ++ (1 :: (res ++ (pay ++ (t :: s))))) = .retry s := by
  unfold parseCandidate
  simp only [readFull_append len4 (1 :: (res ++ (pay ++ (t :: s)))) h4,
    if_neg (Nat.not_lt_zero _), readFull_cons,
    if_neg (show ¬([1] : List Byte) ≠ [1] by simp),
    readFull_append res (pay ++ (t :: s)) hres, if_neg (Nat.not_lt.mpr hdl),
    readFull_append pay (t :: s) hpay,
    if_pos (show ([t] : List Byte) ≠ [40] by simp [ht])]

theorem parseCandidate_success {len4 res pay : List Byte} (s : List Byte)
    (h4 : len4.length = 4) (hres : res.length = 10)
    (hpay : pay.length = videoDataLength len4)
    (hdl : videoDataLength len4 ≤ 10485760) :
    parseCandidate (len4 ++ (1 :: (res ++ (pay ++ (40 :: s)))))
      = .found (38 :: (len4 ++ ([1] ++ (res ++ (pay ++ [40]))))) s := by
  unfold parseCandidate
  simp only [readFull_append len4 (1 :: (res ++ (pay ++ (40 :: s)))) h4,
    if_neg (Nat.not_lt_zero _), readFull_cons,
    if_neg (show ¬([1] : List Byte) ≠ [1] by simp),
    readFull_append res (pay ++ (40 :: s)) hres, if_neg (Nat.not_lt.mpr hdl),
    readFull_append pay (40 :: s) hpay,
    if_neg (show ¬([40] : List Byte) ≠ [40] by simp)]

/-! ### On-wire frame construction -/

/-- The 4-byte big-endian encoding of a 32-bit value. -/
def be4 (n : Nat) : List Byte :=
  [n / 16777216 % 256, n / 65536 % 256, n / 256 % 256, n % 256]

theorem be4_length (n : Nat) : (be4 n).length = 4 := rfl

theorem bigEndianUint32_be4 {n : Nat} (h : n < 4294967296) :
    bigEndianUint32 (be4 n) = n := by
  simp only [be4, bigEndianUint32]
  omega

/-- A well-formed VideoPacket frame as it appears on the wire:
header `0x26`, 4-byte big-endian total length (payload length + 17),
version `1`, 10 reserved bytes, payload, tail `0x28`. -/
def mkFrame (res pay : List Byte) : List Byte :=
  38 :: (be4 (pay.length + 17) ++ ([1] ++ (res ++ (pay ++ [40]))))

theorem mkFrame_length {res pay : List Byte} (hres : res.length = 10) :
    (mkFrame res pay).length = 17 + pay.length := by
  simp [mkFrame, be4, hres]
  omega

theorem videoDataLength_be4 {n : Nat} (h : n ≤ 10485760) :
    videoDataLength (be4 (n + 17)) = n := by
  unfold videoDataLength
  rw [bigEndianUint32_be4 (by omega)]
  omega

/-- The central success law: a well-formed frame at the head of the stream is
returned whole, with the stream advanced exactly past it. -/
theorem parse_mkFrame {res pay : List Byte} (rest : List Byte)
    (hres : res.length = 10) (hpay : pay.length ≤ 10485760) :
    parseVideoPacketRequest (mkFrame res pay ++ rest)
      = some (mkFrame res pay, rest) := by
  have hshape : mkFrame res pay ++ rest
      = 38 :: (be4 (pay.length + 17) ++ (1 :: (res ++ (pay ++ (40 :: rest))))) := by
    simp [mkFrame]
  rw [hshape]
  rw [parse_header_found (parseCandidate_success rest (be4_length _)
    hres (by rw [videoDataLength_be4 hpay]) (by rw [videoDataLength_be4 hpay]; omega))]
  rfl

/-! ### Every request returned by the parser is a well-formed frame -/

/-- The shape of every buffer the parser can hand to a caller: header `0x26`,
4 length bytes, version `1`, 10 reserved bytes, a payload of the length the
length field encodes, and tail `0x28`, with the payload at most 10 MiB. -/
def IsWireFrame (req : List Byte) : Prop :=
  ∃ len4 res pay : List Byte,
    req = 38 :: (len4 ++ ([1] ++ (res ++ (pay ++ [40]))))
    ∧ len4.length = 4 ∧ res.length = 10
    ∧ pay.length = videoDataLength len4
    ∧ videoDataLength len4 ≤ 10485760

theorem parseCandidate_found_inv {s req r : List Byte}
    (h : parseCandidate s = .found req r) : IsWireFrame req := by
  unfold parseCandidate at h
  split at h
  · exact absurd h (by simp)
  next length s1 heq1 =>
    obtain ⟨ha1, hs1, hk1⟩ := readFull_eq_some heq1
    split at h
    · exact absurd h (by simp)
    split at h
    · exact absurd h (by simp)
    next version s2 heq2 =>
      obtain ⟨ha2, hs2, hk2⟩ := readFull_eq_some heq2
      split at h
      · exact absurd h (by simp)
      next hv =>
      split at h
      · exact absurd h (by simp)
      next reserved s3 heq3 =>
        obtain ⟨ha3, hs3, hk3⟩ := readFull_eq_some heq3
        split at h
        · exact absurd h (by simp)
        next hdl =>
        split at h
        · exact absurd h (by simp)
        next data s4 heq4 =>
          obtain ⟨ha4, hs4, hk4⟩ := readFull_eq_some heq4
          split at h
          · exact absurd h (by simp)
          next tail s5 heq5 =>
            obtain ⟨ha5, hs5, hk5⟩ := readFull_eq_some heq5
            split at h
            · exact absurd h (by simp)
            next htail =>
              cases h
              refine ⟨length, reserved, data, ?_, ?_, ?_, ?_, ?_⟩
              · have hver : version = [1] := by
                  by_contra hne
                  exact hv hne
                have htl : tail = [40] := by
                  by_contra hne
                  exact htail hne
                rw [hver, htl]
              · rw [ha1, List.length_take]
                omega
              · rw [ha3, List.length_take]
                omega
              · rw [ha4, List.length_take]
                omega
              · omega

theorem parseIter_some_frame :
    ∀ (f : Nat) {s req r : List Byte},
      parseIter f s = .done (some (req, r)) → IsWireFrame req := by
  intro f
  induction f with
  | zero => intro s req r h; exact absurd h (by simp [parseIter])
  | succ f ih =>
    intro s req r h
    cases s with
    | nil => exact absurd h (by simp [parseIter])
    | cons b rest =>
      simp only [parseIter] at h
      by_cases hb : b = 38
      · rw [if_pos hb] at h
        cases hc : parseCandidate rest with
        | eof => rw [hc] at h; exact absurd h (by simp)
        | found req' r' =>
          rw [hc] at h
          have : req' = req := by
            have := IterResult.done.inj h
            exact (Prod.mk.injEq _ _ _ _ ▸ Option.some.inj this).1
          exact this ▸ parseCandidate_found_inv hc
        | retry r' => rw [hc] at h; exact ih h
      · rw [if_neg hb] at h
        exact ih h

/-- Every buffer `parseVideoPacketRequest` returns successfully is a
well-formed frame. -/
theorem parse_some_frame {s req r : List Byte}
    (h : parseVideoPacketRequest s = some (req, r)) : IsWireFrame req := by
  have hc := parseIter_complete (s.length + 1) s (by omega)
  rw [h] at hc
  exact parseIter_some_frame _ hc

/-! ### Streams of concatenated frames and successive parser calls -/

/-- The byte stream formed by concatenating the frames built from a list of
(reserved bytes, payload) pairs, with no interleaved garbage. -/
def framesBytes (ps : List (List Byte × List Byte)) : List Byte :=
  (ps.map fun p => mkFrame p.1 p.2).flatten

/-- The stream position after `n` successful calls to
`parseVideoPacketRequest` starting from `s` (`none` once a call has failed
with end-of-stream). -/
def restAfterCalls (s : List Byte) : Nat → Option (List Byte)
  | 0 => some s
  | n + 1 =>
    match restAfterCalls s n with
    | some r =>
      match parseVideoPacketRequest r with
      | some (_, r') => some r'
      | none => none
    | none => none

/-- The result of the `(n+1)`-th successive call to
`parseVideoPacketRequest` on the stream `s` (`none` both for end-of-stream
at that call and when an earlier call already failed). -/
def nthCallResult (s : List Byte) (n : Nat) : Option (List Byte × List Byte) :=
  match restAfterCalls s n with
  | some r => parseVideoPacketRequest r
  | none => none

theorem framesBytes_nil : framesBytes [] = [] := rfl

theorem framesBytes_cons (p : List Byte × List Byte)
    (ps : List (List Byte × List Byte)) :
    framesBytes (p :: ps) = mkFrame p.1 p.2 ++ framesBytes ps := by
  simp [framesBytes]

theorem restAfterCalls_frames
    (ps : List (List Byte × List Byte))
    (hwf : ∀ p ∈ ps, (p.1 : List Byte).length = 10 ∧ (p.2 : List Byte).length ≤ 10485760) :
    ∀ n, n ≤ ps.length →
      restAfterCalls (framesBytes ps) n = some (framesBytes (ps.drop n)) := by
  intro n
  induction n with
  | zero => intro _; simp [restAfterCalls]
  | succ n ih =>
    intro hn
    have hlt : n < ps.length := by omega
    unfold restAfterCalls
    rw [ih (by omega)]
    rw [List.drop_eq_getElem_cons hlt, framesBytes_cons]
    have hmem : ps[n] ∈ ps := List.getElem_mem hlt
    simp only [parse_mkFrame (framesBytes (ps.drop (n + 1)))
      (hwf _ hmem).1 (hwf _ hmem).2]

/-! ### The two stream handlers and the dispatcher -/

/-- The discrete-message handler `handleVideoPacketRequest`, step-indexed:
loop `parseVideoPacketRequest`; on success submit the request to the shared
delivery queue `f.d.C` and continue; on error (end-of-stream) return. The
value is the list of buffers submitted to the queue, in submission order. -/
def handleVideoPacketRequestIter : Nat → List Byte → List (List Byte)
  | 0, _ => []
  | fuel + 1, s =>
    match parseVideoPacketRequest s with
    | none => []
    | some (req, r) => req :: handleVideoPacketRequestIter fuel r

/-- Queue submissions of the discrete-message handler on a finite stream.
Each successful call consumes at least one byte, so `s.length + 1` loop
iterations always suffice. -/
def handleVideoPacketRequest (s : List Byte) : List (List Byte) :=
  handleVideoPacketRequestIter (s.length + 1) s

/-- The inner chunk loop of `handleVideoPacketRaw`, step-indexed: repeatedly
`io.ReadFull` a fresh 4096-byte buffer `buf` and submit it to
`sender.Data()`. On a failed read that still obtained `n > 0` bytes, the Go
code submits `buf` — the whole 4096-byte buffer, i.e. the `n` bytes obtained
followed by `4096 - n` zero bytes from `make` — and breaks; on a failed read
with `n = 0` it just breaks. Returns the submitted buffers and the remaining
stream (empty once the loop has broken, since `io.ReadFull` consumes the
whole tail before failing). -/
def rawChunksIter : Nat → List Byte → (List (List Byte) × List Byte)
  | 0, s => ([], s)
  | fuel + 1, s =>
    if 4096 ≤ s.length then
      ((s.take 4096) :: (rawChunksIter fuel (s.drop 4096)).1,
        (rawChunksIter fuel (s.drop 4096)).2)
    else if 0 < s.length then ([s ++ List.replicate (4096 - s.length) 0], [])
    else ([], [])

/-- The chunk phase of the raw handler on a finite stream: `s.length + 1`
iterations always suffice since each full read consumes 4096 bytes. -/
def rawChunks (s : List Byte) : List (List Byte) × List Byte :=
  rawChunksIter (s.length + 1) s

/-- The outer loop of `handleVideoPacketRaw`, step-indexed: anchor on one
valid request via `parseVideoPacketRequest` (end-of-stream terminates the
task), submit it to `sender.Data()`, then stream raw 4096-byte chunks until
a read failure, after which the loop re-anchors. The value is the list of
buffers submitted to the sender's data channel, in submission order. -/
def handleVideoPacketRawIter : Nat → List Byte → List (List Byte)
  | 0, _ => []
  | fuel + 1, s =>
    match parseVideoPacketRequest s with
    | none => []
    | some (req, r) =>
      (req :: (rawChunks r).1) ++ handleVideoPacketRawIter fuel (rawChunks r).2

/-- Sender submissions of the raw-passthrough handler on a finite stream
(after a sender was successfully created). -/
def handleVideoPacketRaw (s : List Byte) : List (List Byte) :=
  handleVideoPacketRawIter (s.length + 1) s

/-- Modelled from the spec: the process-wide operating mode of the external
`deliver` package. The dispatcher only compares the configured mode against
`deliver.ModeRaw`; the spec describes exactly two handling modes (discrete
vs. raw). -/
inductive DeliverMode where
  | modeRaw : DeliverMode
  | modeRequest : DeliverMode
  deriving DecidableEq

/-- Modelled from the spec: the externally observable effects of the
handling task that `VideoPacketStreamFactory.New` starts for one connection
stream — the buffers submitted to the shared delivery queue `d.C`, the
buffers submitted to the per-connection sender's data channel, and whether a
per-connection sender is created at all. -/
structure NewStreamEffects where
  queueSubmissions : List (List Byte)
  senderSubmissions : List (List Byte)
  createsSender : Bool
  deriving DecidableEq

/-- `VideoPacketStreamFactory.New`: if the process-wide mode equals
`deliver.ModeRaw` it starts `handleVideoPacketRaw` (which creates a
per-connection sender and, when that succeeds — `senderOk` — submits only to
it), and otherwise starts `handleVideoPacketRequest` (which submits every
parsed frame to the shared delivery queue and never creates a sender). -/
def videoPacketStreamFactoryNew (mode : DeliverMode) (senderOk : Bool)
    (s : List Byte) : NewStreamEffects :=
  if mode = DeliverMode.modeRaw then
    { queueSubmissions := []
      senderSubmissions := if senderOk then handleVideoPacketRaw s else []
      createsSender := true }
  else
    { queueSubmissions := handleVideoPacketRequest s
      senderSubmissions := []
      createsSender := false }

/-! ### Concrete streams used in the spec's scenarios -/

/-- The minimal well-formed frame: length field 17, hence empty payload. -/
def minimalFrame17 : List Byte :=
  [38, 0, 0, 0, 17, 1, 0, 0, 0, 0, 0, 0, 0, 0, 0, 0, 40]

/-- The stream of the C6 counterexample: a frame carrying the one-byte
payload `0x26`, with the byte right after its header corrupted from `0x00`
to `0x01` (so its length field reads `0x01000012` and the 10 MiB length
check fails), followed by a perfectly valid minimal frame. -/
def c6CorruptStream : List Byte :=
  [38, 1, 0, 0, 18, 1, 0, 0, 0, 0, 0, 0, 0, 0, 0, 0, 38, 40] ++ minimalFrame17

/-- The same stream with the corrupted byte restored to `0x00`: two valid
frames in sequence. -/
def c6CleanStream : List Byte :=
  [38, 0, 0, 0, 18, 1, 0, 0, 0, 0, 0, 0, 0, 0, 0, 0, 38, 40] ++ minimalFrame17

/-! ### Auxiliary facts for the claim theorems -/

theorem bigEndianUint32_lt (b : List Byte) : bigEndianUint32 b < 4294967296 := by
  unfold bigEndianUint32
  split
  · omega
  · omega

theorem nthCallResult_eq {s r : List Byte} {n : Nat}
    (h : restAfterCalls s n = some r) :
    nthCallResult s n = parseVideoPacketRequest r := by
  unfold nthCallResult
  rw [h]

theorem rawChunks_small (s : List Byte) (h1 : s.length < 4096) (h2 : 0 < s.length) :
    rawChunks s = ([s ++ List.replicate (4096 - s.length) 0], []) := by
  unfold rawChunks
  simp only [rawChunksIter]
  rw [if_neg (by omega), if_pos h2]

theorem handleVideoPacketRawIter_nil (fuel : Nat) :
    handleVideoPacketRawIter fuel [] = [] := by
  cases fuel with
  | zero => rfl
  | succ f => simp only [handleVideoPacketRawIter, parse_nil]

/-! ## The claims -/

/-- **C1**: for a stream of `N ≥ 1` valid frames concatenated with no
interleaved garbage and then end-of-stream, `N` successive calls to
`parseVideoPacketRequest` return the `N` frames in order, each byte-identical
to its input segment, and the `(N+1)`-th call returns end-of-stream. -/
theorem videoPacket_C1_frames_in_order (ps : List (List Byte × List Byte))
    (hwf : ∀ p ∈ ps, (p.1 : List Byte).length = 10 ∧ (p.2 : List Byte).length ≤ 10485760) :
    (∀ (i : Nat) (hi : i < ps.length),
        nthCallResult (framesBytes ps) i
          = some (mkFrame ps[i].1 ps[i].2, framesBytes (ps.drop (i + 1))))
    ∧ nthCallResult (framesBytes ps) ps.length = none := by
  constructor
  · intro i hi
    rw [nthCallResult_eq (restAfterCalls_frames ps hwf i (by omega))]
    rw [List.drop_eq_getElem_cons hi, framesBytes_cons]
    exact parse_mkFrame _ (hwf _ (List.getElem_mem hi)).1
      (hwf _ (List.getElem_mem hi)).2
  · rw [nthCallResult_eq (restAfterCalls_frames ps hwf ps.length (Nat.le_refl _))]
    rw [List.drop_length, framesBytes_nil]
    exact parse_nil

theorem videoPacket_C1_witness :
    (∀ p ∈ [(List.replicate 10 (0 : Byte), ([] : List Byte))],
        (p.1 : List Byte).length = 10 ∧ (p.2 : List Byte).length ≤ 10485760)
    ∧ nthCallResult (framesBytes [(List.replicate 10 (0 : Byte), ([] : List Byte))]) 0
        = some (mkFrame (List.replicate 10 0) [], framesBytes [])
    ∧ nthCallResult (framesBytes [(List.replicate 10 (0 : Byte), ([] : List Byte))]) 1
        = none := by
  have h := videoPacket_C1_frames_in_order
    [(List.replicate 10 (0 : Byte), ([] : List Byte))] (by decide)
  exact ⟨by decide, by simpa using h.1 0 (by decide), h.2⟩

/-- **C2**: a candidate whose 4-byte big-endian length field is below 17
(the unsigned 64-bit subtraction `uint64(uint32) - 17` wraps modulo `2^64`,
so the `dataLength < 0` test never fires) or implies a payload above
10 MiB is rejected and never returned: the call resumes scanning the
remaining stream for the next `0x26` header byte (from right after the
version byte when the version check already rejects the candidate, and from
right after the reserved bytes otherwise). -/
theorem videoPacket_C2_reject_bad_length (len4 res rest : List Byte) (v : Byte)
    (h4 : len4.length = 4) (hres : res.length = 10)
    (hbad : bigEndianUint32 len4 < 17 ∨ 17 + 10485760 < bigEndianUint32 len4) :
    parseVideoPacketRequest (38 :: (len4 ++ (v :: (res ++ rest))))
      = if v = 1 then parseVideoPacketRequest rest
        else parseVideoPacketRequest (res ++ rest) := by
  have hlt : bigEndianUint32 len4 < 4294967296 := bigEndianUint32_lt len4
  have hdl : 10485760 < videoDataLength len4 := by
    unfold videoDataLength
    omega
  by_cases hv : v = 1
  · rw [if_pos hv, hv]
    exact parse_header_retry (parseCandidate_length_retry rest h4 hres hdl)
  · rw [if_neg hv]
    exact parse_header_retry (parseCandidate_version_retry (res ++ rest) h4 hv)

theorem videoPacket_C2_witness :
    bigEndianUint32 [0, 0, 0, 0] < 17
    ∧ parseVideoPacketRequest
        (38 :: ([0, 0, 0, 0] ++ (1 :: (List.replicate 10 (0 : Byte) ++ []))))
        = if (1 : Byte) = 1 then parseVideoPacketRequest []
          else parseVideoPacketRequest (List.replicate 10 (0 : Byte) ++ []) :=
  ⟨by decide,
    videoPacket_C2_reject_bad_length [0, 0, 0, 0] (List.replicate 10 0) [] 1
      (by decide) (by decide) (Or.inl (by decide))⟩

/-- **C3**: end-of-stream during any read step (header scan, length,
version, reserved, payload, tail) makes the call return end-of-stream
(`none`), with no frame and no retry; every malformed-frame condition
(non-header byte while scanning, bad version, invalid/oversized length, bad
tail) is instead handled inside the same call by resuming the scan on the
remaining stream, surfacing no error. -/
theorem videoPacket_C3_error_semantics :
    (parseVideoPacketRequest [] = none)
    ∧ (∀ s : List Byte, s.length < 4 →
        parseVideoPacketRequest (38 :: s) = none)
    ∧ (∀ s : List Byte, s.length = 4 →
        parseVideoPacketRequest (38 :: s) = none)
    ∧ (∀ len4 s : List Byte, len4.length = 4 → s.length < 10 →
        parseVideoPacketRequest (38 :: (len4 ++ (1 :: s))) = none)
    ∧ (∀ len4 res s : List Byte, len4.length = 4 → res.length = 10 →
        videoDataLength len4 ≤ 10485760 → s.length < videoDataLength len4 →
        parseVideoPacketRequest (38 :: (len4 ++ (1 :: (res ++ s)))) = none)
    ∧ (∀ len4 res pay : List Byte, len4.length = 4 → res.length = 10 →
        videoDataLength len4 ≤ 10485760 → pay.length = videoDataLength len4 →
        parseVideoPacketRequest (38 :: (len4 ++ (1 :: (res ++ pay)))) = none)
    ∧ (∀ (b : Byte) (s : List Byte), b ≠ 38 →
        parseVideoPacketRequest (b :: s) = parseVideoPacketRequest s)
    ∧ (∀ (len4 s : List Byte) (v : Byte), len4.length = 4 → v ≠ 1 →
        parseVideoPacketRequest (38 :: (len4 ++ (v :: s)))
          = parseVideoPacketRequest s)
    ∧ (∀ len4 res s : List Byte, len4.length = 4 → res.length = 10 →
        10485760 < videoDataLength len4 →
        parseVideoPacketRequest (38 :: (len4 ++ (1 :: (res ++ s))))
          = parseVideoPacketRequest s)
    ∧ (∀ (len4 res pay s : List Byte) (t : Byte), len4.length = 4 →
        res.length = 10 → pay.length = videoDataLength len4 →
        videoDataLength len4 ≤ 10485760 → t ≠ 40 →
        parseVideoPacketRequest
          (38 :: (len4 ++ (1 :: (res ++ (pay ++ (t :: s))))))
          = parseVideoPacketRequest s) := by
  refine ⟨parse_nil, ?_, ?_, ?_, ?_, ?_, ?_, ?_, ?_, ?_⟩
  · intro s h
    exact parse_header_eof (parseCandidate_eof_length h)
  · intro s h
    exact parse_header_eof (parseCandidate_eof_version h)
  · intro len4 s h4 hs
    exact parse_header_eof (parseCandidate_eof_reserved h4 hs)
  · intro len4 res s h4 hres hdl hs
    exact parse_header_eof (parseCandidate_eof_payload h4 hres hdl hs)
  · intro len4 res pay h4 hres hdl hpay
    exact parse_header_eof (parseCandidate_eof_tail h4 hres hdl hpay)
  · intro b s hb
    exact parse_scan s hb
  · intro len4 s v h4 hv
    exact parse_header_retry (parseCandidate_version_retry s h4 hv)
  · intro len4 res s h4 hres hdl
    exact parse_header_retry (parseCandidate_length_retry s h4 hres hdl)
  · intro len4 res pay s t h4 hres hpay hdl ht
    exact parse_header_retry (parseCandidate_tail_retry s h4 hres hpay hdl ht)

theorem videoPacket_C3_witness :
    (parseVideoPacketRequest [] = none)
    ∧ (parseVideoPacketRequest (38 :: [0, 0]) = none)
    ∧ (parseVideoPacketRequest (38 :: [0, 0, 0, 17]) = none)
    ∧ (parseVideoPacketRequest (38 :: ([0, 0, 0, 17] ++ (1 :: [0, 0]))) = none)
    ∧ (parseVideoPacketRequest
        (38 :: ([0, 0, 0, 18] ++ (1 :: (List.replicate 10 (0 : Byte) ++ []))))
        = none)
    ∧ (parseVideoPacketRequest
        (38 :: ([0, 0, 0, 18] ++ (1 :: (List.replicate 10 (0 : Byte) ++ [7]))))
        = none)
    ∧ (parseVideoPacketRequest (5 :: [38]) = parseVideoPacketRequest [38])
    ∧ (parseVideoPacketRequest (38 :: ([0, 0, 0, 17] ++ (2 :: [])))
        = parseVideoPacketRequest [])
    ∧ (parseVideoPacketRequest
        (38 :: ([255, 0, 0, 0] ++ (1 :: (List.replicate 10 (0 : Byte) ++ []))))
        = parseVideoPacketRequest [])
    ∧ (parseVideoPacketRequest
        (38 :: ([0, 0, 0, 18] ++ (1 :: (List.replicate 10 (0 : Byte) ++ ([7] ++ (41 :: []))))))
        = parseVideoPacketRequest []) := by
  have h := videoPacket_C3_error_semantics
  refine ⟨h.1, ?_, ?_, ?_, ?_, ?_, ?_, ?_, ?_, ?_⟩
  · exact h.2.1 [0, 0] (by decide)
  · exact h.2.2.1 [0, 0, 0, 17] (by decide)
  · exact h.2.2.2.1 [0, 0, 0, 17] [0, 0] (by decide) (by decide)
  · exact h.2.2.2.2.1 [0, 0, 0, 18] (List.replicate 10 0) [] (by decide)
      (by decide) (by decide) (by decide)
  · exact h.2.2.2.2.2.1 [0, 0, 0, 18] (List.replicate 10 0) [7] (by decide)
      (by decide) (by decide) (by decide)
  · exact h.2.2.2.2.2.2.1 5 [38] (by decide)
  · exact h.2.2.2.2.2.2.2.1 [0, 0, 0, 17] [] 2 (by decide) (by decide)
  · exact h.2.2.2.2.2.2.2.2.1 [255, 0, 0, 0] (List.replicate 10 0) []
      (by decide) (by decide) (by decide)
  · exact h.2.2.2.2.2.2.2.2.2 [0, 0, 0, 18] (List.replicate 10 0) [7] [] 41
      (by decide) (by decide) (by decide) (by decide) (by decide)

/-- **C4**: the 17-byte input `0x26 00 00 00 11 01` + ten `0x00` reserved
bytes + tail `0x28` (length field 17, hence payload length 0) parses
successfully, returning exactly those 17 input bytes as the frame, with a
zero-length payload. -/
theorem videoPacket_C4_minimal_frame :
    parseVideoPacketRequest minimalFrame17 = some (minimalFrame17, [])
    ∧ minimalFrame17 = mkFrame (List.replicate 10 0) []
    ∧ minimalFrame17.length = 17 := by
  decide

/-- **C5**: the 17-byte minimal frame with its tail byte replaced by `0x29`
(41), immediately followed by any valid frame: the corrupt candidate is
rejected (no frame returned for it) and the same call returns the following
valid frame byte-identically. -/
theorem videoPacket_C5_bad_tail_recovery (res pay rest : List Byte)
    (hres : res.length = 10) (hpay : pay.length ≤ 10485760) :
    parseVideoPacketRequest
      ([38, 0, 0, 0, 17, 1, 0, 0, 0, 0, 0, 0, 0, 0, 0, 0, 41]
        ++ (mkFrame res pay ++ rest))
      = some (mkFrame res pay, rest) := by
  have hshape : ([38, 0, 0, 0, 17, 1, 0, 0, 0, 0, 0, 0, 0, 0, 0, 0, 41] : List Byte)
        ++ (mkFrame res pay ++ rest)
      = 38 :: (([0, 0, 0, 17] : List Byte)
        ++ (1 :: (([0, 0, 0, 0, 0, 0, 0, 0, 0, 0] : List Byte)
          ++ (([] : List Byte) ++ (41 :: (mkFrame res pay ++ rest)))))) := rfl
  rw [hshape]
  rw [parse_header_retry (parseCandidate_tail_retry (mkFrame res pay ++ rest)
    (by decide) (by decide) (by decide) (by decide) (by decide))]
  exact parse_mkFrame rest hres hpay

theorem videoPacket_C5_witness :
    (List.replicate 10 (0 : Byte)).length = 10
    ∧ parseVideoPacketRequest
        ([38, 0, 0, 0, 17, 1, 0, 0, 0, 0, 0, 0, 0, 0, 0, 0, 41]
          ++ (mkFrame (List.replicate 10 0) [] ++ []))
        = some (mkFrame (List.replicate 10 0) [], []) :=
  ⟨by decide,
    videoPacket_C5_bad_tail_recovery (List.replicate 10 0) [] []
      (by decide) (by decide)⟩

/-- **C6 (counterexample)**: the claim fails as stated. `c6CorruptStream`
contains a `0x26` header (position 0) followed by one corrupt byte (`0x01`
at position 1, `0x00` in the uncorrupted `c6CleanStream`) that makes that
candidate's length check fail (`videoDataLength [1,0,0,18] > 10 MiB`), and a
genuinely valid frame later in the stream (`minimalFrame17` from position
18). The uncorrupted stream parses fine, but on the corrupted stream the
rejected candidate's resynchronization point falls on the stray `0x26`
payload byte at position 16, the misaligned second candidate's retry then
consumes the valid frame's header, and the call returns end-of-stream: the
later valid frame is never recovered. -/
theorem videoPacket_C6_counterexample :
    (10485760 < videoDataLength [1, 0, 0, 18])
    ∧ c6CorruptStream.drop 18 = minimalFrame17
    ∧ parseVideoPacketRequest minimalFrame17 = some (minimalFrame17, [])
    ∧ parseVideoPacketRequest c6CleanStream
        = some (c6CleanStream.take 18, minimalFrame17)
    ∧ parseVideoPacketRequest c6CorruptStream = none := by
  decide

/-- **C6 (amended)**: a corrupt candidate that fails the version, length, or
tail check does not prevent recovery of a later genuinely valid frame,
provided the parser's resynchronization point (right after the bytes the
rejected candidate consumed) is at or before the valid frame's start and no
stray `0x26` byte lies strictly between the two. -/
theorem videoPacket_C6_amended_resync :
    (∀ (len4 mid res pay rest : List Byte) (v : Byte),
        len4.length = 4 → v ≠ 1 → (∀ b ∈ mid, b ≠ 38) →
        res.length = 10 → pay.length ≤ 10485760 →
        parseVideoPacketRequest
          (38 :: (len4 ++ (v :: (mid ++ (mkFrame res pay ++ rest)))))
          = some (mkFrame res pay, rest))
    ∧ (∀ len4 res0 mid res pay rest : List Byte,
        len4.length = 4 → res0.length = 10 → 10485760 < videoDataLength len4 →
        (∀ b ∈ mid, b ≠ 38) → res.length = 10 → pay.length ≤ 10485760 →
        parseVideoPacketRequest
          (38 :: (len4 ++ (1 :: (res0 ++ (mid ++ (mkFrame res pay ++ rest))))))
          = some (mkFrame res pay, rest))
    ∧ (∀ (len4 res0 pay0 mid res pay rest : List Byte) (t : Byte),
        len4.length = 4 → res0.length = 10 →
        pay0.length = videoDataLength len4 → videoDataLength len4 ≤ 10485760 →
        t ≠ 40 → (∀ b ∈ mid, b ≠ 38) →
        res.length = 10 → pay.length ≤ 10485760 →
        parseVideoPacketRequest
          (38 :: (len4 ++ (1 :: (res0 ++ (pay0 ++ (t :: (mid ++ (mkFrame res pay ++ rest))))))))
          = some (mkFrame res pay, rest)) := by
  refine ⟨?_, ?_, ?_⟩
  · intro len4 mid res pay rest v h4 hv hmid hres hpay
    rw [parse_header_retry (parseCandidate_version_retry _ h4 hv)]
    rw [parse_scan_append _ hmid]
    exact parse_mkFrame rest hres hpay
  · intro len4 res0 mid res pay rest h4 hres0 hdl hmid hres hpay
    rw [parse_header_retry (parseCandidate_length_retry _ h4 hres0 hdl)]
    rw [parse_scan_append _ hmid]
    exact parse_mkFrame rest hres hpay
  · intro len4 res0 pay0 mid res pay rest t h4 hres0 hpay0 hdl ht hmid hres hpay
    rw [parse_header_retry (parseCandidate_tail_retry _ h4 hres0 hpay0 hdl ht)]
    rw [parse_scan_append _ hmid]
    exact parse_mkFrame rest hres hpay

theorem videoPacket_C6_amended_witness :
    (parseVideoPacketRequest
        (38 :: ([0, 0, 0, 17] ++ (2 :: ([] ++ (mkFrame (List.replicate 10 0) [] ++ [])))))
        = some (mkFrame (List.replicate 10 0) [], []))
    ∧ (parseVideoPacketRequest
        (38 :: ([255, 0, 0, 0] ++ (1 :: (List.replicate 10 (0 : Byte)
          ++ ([5] ++ (mkFrame (List.replicate 10 0) [] ++ []))))))
        = some (mkFrame (List.replicate 10 0) [], []))
    ∧ (parseVideoPacketRequest
        (38 :: ([0, 0, 0, 18] ++ (1 :: (List.replicate 10 (0 : Byte)
          ++ ([7] ++ (41 :: ([] ++ (mkFrame (List.replicate 10 0) [] ++ []))))))))
        = some (mkFrame (List.replicate 10 0) [], [])) := by
  have h := videoPacket_C6_amended_resync
  refine ⟨?_, ?_, ?_⟩
  · exact h.1 [0, 0, 0, 17] [] (List.replicate 10 0) [] [] 2 (by decide)
      (by decide) (by decide) (by decide) (by decide)
  · exact h.2.1 [255, 0, 0, 0] (List.replicate 10 0) [5] (List.replicate 10 0)
      [] [] (by decide) (by decide) (by decide) (by decide) (by decide) (by decide)
  · exact h.2.2 [0, 0, 0, 18] (List.replicate 10 0) [7] [] (List.replicate 10 0)
      [] [] 41 (by decide) (by decide) (by decide) (by decide) (by decide)
      (by decide) (by decide) (by decide)

/-- **C7 (code bug evaluated)**: in raw-passthrough mode, after the anchor
frame succeeds, the chunk loop reads 4096-byte chunks. On the failing input
`minimalFrame17 ++ [1, 2, 3]` the short read obtains `n = 3 > 0` bytes, and
the code submits `buf` — the whole 4096-byte buffer, i.e. the 3 partial
bytes padded with 4093 zero bytes from `make` — rather than exactly the 3
bytes obtained, as the claim (and `buf[:n]`) would require. -/
theorem videoPacket_C7_partial_flush_padded :
    handleVideoPacketRaw (minimalFrame17 ++ [1, 2, 3])
      = [minimalFrame17, [1, 2, 3] ++ List.replicate 4093 0]
    ∧ ([1, 2, 3] ++ List.replicate 4093 (0 : Byte)).length = 4096
    ∧ [1, 2, 3] ++ List.replicate 4093 (0 : Byte) ≠ [1, 2, 3] := by
  have hparse : parseVideoPacketRequest (minimalFrame17 ++ [1, 2, 3])
      = some (minimalFrame17, [1, 2, 3]) := by
    have h1 : minimalFrame17 ++ [1, 2, 3]
        = mkFrame (List.replicate 10 0) [] ++ [1, 2, 3] := by decide
    have h2 : mkFrame (List.replicate 10 (0 : Byte)) [] = minimalFrame17 := by decide
    rw [h1, parse_mkFrame [1, 2, 3] (by decide) (by decide), h2]
  have hchunk : rawChunks [1, 2, 3] = ([[1, 2, 3] ++ List.replicate 4093 0], []) := by
    rw [rawChunks_small [1, 2, 3] (by decide) (by decide)]
    norm_num
  refine ⟨?_, ?_, ?_⟩
  · unfold handleVideoPacketRaw
    simp only [handleVideoPacketRawIter, hparse, hchunk, parse_nil,
      List.append_nil]
  · simp only [List.length_append, List.length_replicate, List.length_cons,
      List.length_nil]
  · intro hx
    have hlen := congrArg List.length hx
    simp only [List.length_append, List.length_replicate, List.length_cons,
      List.length_nil] at hlen
    omega

/-- **C8**: `VideoPacketStreamFactory.New` selects the handler solely from
the process-wide mode: `ModeRaw` starts the raw-passthrough handler, which
creates a per-connection sender and submits only to it (never to the shared
delivery queue); any other mode starts the discrete-message handler, which
submits every parsed frame to the shared delivery queue and never creates or
uses a sender. -/
theorem videoPacket_C8_mode_dispatch (mode : DeliverMode) (senderOk : Bool)
    (s : List Byte) :
    (mode = DeliverMode.modeRaw →
      (videoPacketStreamFactoryNew mode senderOk s).queueSubmissions = []
      ∧ (videoPacketStreamFactoryNew mode senderOk s).createsSender = true
      ∧ (senderOk = true →
          (videoPacketStreamFactoryNew mode senderOk s).senderSubmissions
            = handleVideoPacketRaw s))
    ∧ (mode ≠ DeliverMode.modeRaw →
      (videoPacketStreamFactoryNew mode senderOk s).senderSubmissions = []
      ∧ (videoPacketStreamFactoryNew mode senderOk s).createsSender = false
      ∧ (videoPacketStreamFactoryNew mode senderOk s).queueSubmissions
        = handleVideoPacketRequest s) := by
  constructor
  · intro hm
    subst hm
    unfold videoPacketStreamFactoryNew
    rw [if_pos rfl]
    refine ⟨rfl, rfl, fun hs => ?_⟩
    simp [hs]
  · intro hm
    unfold videoPacketStreamFactoryNew
    rw [if_neg hm]
    exact ⟨rfl, rfl, rfl⟩

theorem videoPacket_C8_witness :
    ((videoPacketStreamFactoryNew DeliverMode.modeRaw true [38]).queueSubmissions = []
      ∧ (videoPacketStreamFactoryNew DeliverMode.modeRaw true [38]).senderSubmissions
          = handleVideoPacketRaw [38])
    ∧ ((videoPacketStreamFactoryNew DeliverMode.modeRequest true [38]).senderSubmissions = []
      ∧ (videoPacketStreamFactoryNew DeliverMode.modeRequest true [38]).queueSubmissions
          = handleVideoPacketRequest [38]) := by
  have hraw := (videoPacket_C8_mode_dispatch DeliverMode.modeRaw true [38]).1 rfl
  have hreq := (videoPacket_C8_mode_dispatch DeliverMode.modeRequest true [38]).2
    (by decide)
  exact ⟨⟨hraw.1, hraw.2.2 rfl⟩, ⟨hreq.1, hreq.2.2⟩⟩

/-- **C9**: every buffer `parseVideoPacketRequest` returns successfully is a
valid frame: first byte `0x26`, byte at offset 5 equal to `1`, last byte
`0x28`, payload length (total size minus 17) within `[0, 10*1024*1024]`,
and total size 17 plus the payload length, where the payload length is the
big-endian value of bytes 1..4 minus 17. -/
theorem videoPacket_C9_returned_frames_valid (s req r : List Byte)
    (h : parseVideoPacketRequest s = some (req, r)) :
    req.head? = some 38
    ∧ req[5]? = some 1
    ∧ req.getLast? = some 40
    ∧ 17 ≤ req.length
    ∧ req.length - 17 ≤ 10485760
    ∧ bigEndianUint32 ((req.drop 1).take 4) = (req.length - 17) + 17 := by
  obtain ⟨len4, res, pay, hshape, h4, hres, hpay, hdl⟩ := parse_some_frame h
  have hplen : pay.length ≤ 10485760 := by omega
  have hbe : bigEndianUint32 len4 = pay.length + 17 := by
    have hlt := bigEndianUint32_lt len4
    unfold videoDataLength at hpay hdl
    omega
  subst hshape
  refine ⟨rfl, ?_, ?_, ?_, ?_, ?_⟩
  · rw [show (5 : Nat) = 4 + 1 from rfl, List.getElem?_cons_succ,
      List.getElem?_append_right (by omega), h4]
    simp
  · have hshape2 : (38 : Byte) :: (len4 ++ ([1] ++ (res ++ (pay ++ [40]))))
        = (38 :: (len4 ++ ([1] ++ (res ++ pay)))) ++ [40] := by
      simp
    rw [hshape2, List.getLast?_append]
    rfl
  · simp only [List.length_cons, List.length_append, h4, hres]
    omega
  · simp only [List.length_cons, List.length_append, h4, hres,
      List.length_nil]
    omega
  · rw [show ((38 : Byte) :: (len4 ++ ([1] ++ (res ++ (pay ++ [40]))))).drop 1
        = len4 ++ ([1] ++ (res ++ (pay ++ [40]))) from rfl]
    rw [List.take_append_of_le_length (by omega),
      List.take_of_length_le (by omega), hbe]
    simp only [List.length_cons, List.length_append, List.length_nil, h4, hres]
    omega

theorem videoPacket_C9_witness :
    parseVideoPacketRequest minimalFrame17 = some (minimalFrame17, [])
    ∧ (minimalFrame17.head? = some 38
      ∧ minimalFrame17[5]? = some 1
      ∧ minimalFrame17.getLast? = some 40
      ∧ 17 ≤ minimalFrame17.length
      ∧ minimalFrame17.length - 17 ≤ 10485760
      ∧ bigEndianUint32 ((minimalFrame17.drop 1).take 4)
          = (minimalFrame17.length - 17) + 17) :=
  ⟨by decide,
    videoPacket_C9_returned_frames_valid minimalFrame17 minimalFrame17 []
      (by decide)⟩

/-- **C10**: for every finite stream, `parseVideoPacketRequest` terminates:
every iteration of the scanning loop either returns a result (frame or
end-of-stream) or consumes at least one byte, so the step-indexed loop
reaches the call's result within any iteration budget above the stream
length. -/
theorem videoPacket_C10_terminates (s : List Byte) (fuel : Nat)
    (h : s.length < fuel) :
    parseIter fuel s = .done (parseVideoPacketRequest s) :=
  parseIter_complete fuel s h

theorem videoPacket_C10_witness :
    ([38, 5, 6] : List Byte).length < 4
    ∧ parseIter 4 [38, 5, 6] = .done (parseVideoPacketRequest [38, 5, 6]) :=
  ⟨by decide, videoPacket_C10_terminates [38, 5, 6] 4 (by decide)⟩

end VideoPacket
